import Mathlib

/-!
Verification development for the code-quality orchestration engine
(`.windsurf/review/code-review.js` and its components).  Each JavaScript
function that the properties below talk about is translated into an
executable Lean definition; stateful and asynchronous code is modelled by
explicit state passing or a step relation.  Path normalisation helpers
(`toRepoRelative`, `path.join`) are environment dependent and are passed as
function parameters where they occur.
-/

namespace CodeReview

/-- PASS / FAIL status, as used by every per-file category. -/
inductive Status where
  | PASS
  | FAIL
deriving DecidableEq

/-- JavaScript `a || b` on strings: the empty string is falsy. -/
def jsOr (a b : String) : String := if a = "" then b else a

/-! ## Concurrency limiter (`components/utils/concurrency.js`, `createLimiter`)

The limiter keeps a counter `active` and a FIFO `queue`.  `runNext` starts at
most one queued job when capacity allows; it is invoked after every `add` and
after every settlement (`finally`).  The step relation below is the direct
transition-system reading of that code: jobs are identified by numbers, a job
is "in flight" between the `active++` of `runNext` and the `active--` of its
`finally` handler. -/

structure LimiterState where
  active : Nat
  queue : List Nat
deriving DecidableEq

/-- `runNext` from `createLimiter`: returns unchanged when `active >= concurrency`
or the queue is empty; otherwise shifts one job and increments `active`. -/
def runNext (concurrency : Nat) (s : LimiterState) : LimiterState :=
  if concurrency ≤ s.active then s
  else
    match s.queue with
    | [] => s
    | _ :: rest => ⟨s.active + 1, rest⟩

/-- One scheduler step of `createLimiter`:
`add` pushes a job and calls `runNext`; `settle` is the `finally` handler of a
running job (it fires for resolved and rejected jobs alike), decrementing
`active` and calling `runNext`. -/
inductive LimiterStep (concurrency : Nat) : LimiterState → LimiterState → Prop where
  | add (j : Nat) (s : LimiterState) :
      LimiterStep concurrency s (runNext concurrency ⟨s.active, s.queue ++ [j]⟩)
  | settle (s : LimiterState) (h : s.active ≠ 0) :
      LimiterStep concurrency s (runNext concurrency ⟨s.active - 1, s.queue⟩)

/-- States reachable from the initial limiter state (`active = 0`, empty queue). -/
def LimiterReachable (concurrency : Nat) (s : LimiterState) : Prop :=
  Relation.ReflTransGen (LimiterStep concurrency) ⟨0, []⟩ s

/-! ## `mapLimit` (`components/utils/concurrency.js`)

`mapLimit` allocates `results = new Array(items.length)` and submits one job
per index; the job for index `idx` performs `results[idx] = await mapper(item, idx)`.
The limiter serialises starts but jobs settle in an arbitrary order, so the
run is modelled by the list `order` of indices in settlement order: each
settlement of a successful job writes the mapped value into its own slot.
`Promise.all` resolves with `results` when every job succeeded and rejects
with the first error otherwise; a rejected sibling does not prevent the other
jobs from settling and writing their slots. -/

/-- Process settlements in order; the job for index `i` writes `f items[i] i`
into slot `i` of the results array. -/
def applyWrites {α β : Type} (items : List α) (f : α → Nat → β) :
    List (Fin items.length) → (Fin items.length → Option β) → (Fin items.length → Option β)
  | [], acc => acc
  | i :: rest, acc =>
      applyWrites items f rest (Function.update acc i (some (f (items.get i) i.val)))

/-- The results array of `mapLimit` after the settlements in `order`, starting
from the freshly allocated (all-unset) array. -/
def mapLimitSlots {α β : Type} (items : List α) (f : α → Nat → β)
    (order : List (Fin items.length)) : Fin items.length → Option β :=
  applyWrites items f order (fun _ => none)

/-- The value `mapLimit` returns when all jobs succeed: the results array read
back as a list. -/
def mapLimitArray {α β : Type} (items : List α) (f : α → Nat → β)
    (order : List (Fin items.length)) : List (Option β) :=
  (List.finRange items.length).map (mapLimitSlots items f order)

/-- Settlement processing when each job may fail: a successful job writes its
slot, a rejected job leaves `results` untouched (the assignment sits after the
`await` that threw) but still settles. -/
def settleWrites {β ε : Type} {n : Nat} (outcomes : Fin n → Except ε β) :
    List (Fin n) → (Fin n → Option β) → (Fin n → Option β)
  | [], acc => acc
  | i :: rest, acc =>
      settleWrites outcomes rest
        (match outcomes i with
         | .ok b => Function.update acc i (some b)
         | .error _ => acc)

/-- The first rejection in settlement order: `Promise.all` rejects with it. -/
def firstErr {β ε : Type} {n : Nat} (outcomes : Fin n → Except ε β)
    (order : List (Fin n)) : Option ε :=
  order.findSome? fun i =>
    match outcomes i with
    | .error e => some e
    | .ok _ => none

/-- Outcome of `mapLimit` over a complete settlement order: rejection with the
first error when any job rejected, otherwise the filled results array. -/
def mapLimitOutcome {β ε : Type} {n : Nat} (outcomes : Fin n → Except ε β)
    (order : List (Fin n)) : Except ε (List (Option β)) :=
  match firstErr outcomes order with
  | some e => .error e
  | none => .ok ((List.finRange n).map (settleWrites outcomes order (fun _ => none)))

/-! ## File-content cache (`components/utils/fs-utils.js`)

`readFileCached` consults the process-wide map first; on a miss it reads from
disk, stores `content || ''` (or `''` when the read throws) and returns it.
The file system is modelled as `String → Option String` (`none` = the read
throws), the cache as an association list. -/

/-- The `_fileContentCache` map. -/
def FileCache : Type := List (String × String)

/-- `Map.get` on the cache. -/
def cacheGet (cache : FileCache) (p : String) : Option String :=
  (cache.find? (fun e => e.1 = p)).map (·.2)

/-- `Map.set` on the cache. -/
def cacheSet (cache : FileCache) (p v : String) : FileCache :=
  (p, v) :: cache

/-- `readFileCached`: cache hit returns the stored string; otherwise the disk
read is attempted, with `content || ''` stored on success and `''` stored when
the read throws.  Returns the string together with the updated cache. -/
def readFileCached (fsRead : String → Option String) (cache : FileCache)
    (p : String) : String × FileCache :=
  match cacheGet cache p with
  | some v => (v, cache)
  | none =>
      match fsRead p with
      | some content => (jsOr content "", cacheSet cache p (jsOr content ""))
      | none => ("", cacheSet cache p "")

/-- `readFileSmart`: with `CODE_REVIEW_CACHE_FILES == '0'` it reads the disk
directly (empty string on failure, cache untouched); otherwise it delegates to
`readFileCached`. -/
def readFileSmart (cacheEnabled : Bool) (fsRead : String → Option String)
    (cache : FileCache) (p : String) : String × FileCache :=
  if cacheEnabled then readFileCached fsRead cache p
  else
    match fsRead p with
    | some content => (content, cache)
    | none => ("", cache)

/-! ## Character and substring scanning helpers

These model the small amount of regular-expression machinery the analyzers
use.  JavaScript `\w` (no unicode flag) is `[A-Za-z0-9_]`; `\s` is modelled by
the ASCII whitespace characters that occur in tool output. -/

/-- JavaScript word character `\w`. -/
def isWordChar (c : Char) : Bool := c.isAlphanum || c = '_'

/-- Split a character list on a separator character;
mirrors `String.prototype.split` with a single-character separator
(an empty input yields one empty piece, as in JavaScript). -/
def splitOnChar (sep : Char) : List Char → List (List Char)
  | [] => [[]]
  | c :: rest =>
      let r := splitOnChar sep rest
      if c = sep then [] :: r
      else
        match r with
        | [] => [[c]]
        | h :: t => (c :: h) :: t


/-- JavaScript whitespace `\s` (ASCII portion). -/
def isJsWs (c : Char) : Bool :=
  c = ' ' || c = '\t' || c = '\n' || c = '\r' || c = '\x0b' || c = '\x0c'

/-- `String.prototype.trim` (ASCII whitespace portion). -/
def jsTrim (s : String) : String :=
  String.mk (((s.data.dropWhile isJsWs).reverse.dropWhile isJsWs).reverse)

/-- Case-sensitive literal match at the head of `s`. -/
def startsWithLit : List Char → List Char → Bool
  | [], _ => true
  | _ :: _, [] => false
  | p :: ps, c :: cs => p = c && startsWithLit ps cs

/-- Case-insensitive literal match at the head of `s` (for `/i` regex flags). -/
def startsWithCI : List Char → List Char → Bool
  | [], _ => true
  | _ :: _, [] => false
  | p :: ps, c :: cs => p.toLower = c.toLower && startsWithCI ps cs

/-- Word-boundary test between an optional previous character and an optional
next character: `\b` holds when exactly one side is a word character. -/
def wordBoundary (prev next : Option Char) : Bool :=
  (prev.elim false isWordChar) != (next.elim false isWordChar)

/-- Does `\b<name>\b` (with `name` taken literally, as after `escapeRegExp`)
match at the head of `s`, where `prev` is the character just before `s`?
Empty names are not produced by the merge and are treated as non-matching. -/
def wbMatchAt (name : List Char) (prev : Option Char) (s : List Char) : Bool :=
  match name with
  | [] => false
  | first :: _ =>
      startsWithLit name s &&
      wordBoundary prev (some first) &&
      wordBoundary (name.getLast?) ((s.drop name.length).head?)

/-- Number of non-overlapping `\b<name>\b` matches in `s`, scanning left to
right as `String.prototype.matchAll` does.  The scan consumes at least one
character per step, so the remaining length bounds the recursion depth
(`fuel`), keeping the definition structurally recursive and evaluable. -/
def wbCountAux (name : List Char) : Nat → Option Char → List Char → Nat
  | 0, _, _ => 0
  | _, _, [] => 0
  | fuel + 1, prev, c :: rest =>
      if wbMatchAt name prev (c :: rest) then
        1 + wbCountAux name fuel (name.getLast?) (rest.drop (name.length - 1))
      else
        wbCountAux name fuel (some c) rest

/-- Occurrence count of the global word-boundary regexp built from
`escapeRegExp(name)` over `content` (the merge only compares this count
with 1). -/
def wbCount (name content : String) : Nat :=
  wbCountAux name.data content.data.length none content.data

/-! ## Console analyzer (`components/per-file/analyze-console.js`)

`analyzeConsoleErrors` splits the file into lines and flags every line that
matches `/console\.(error|warn)\s*\(/`. -/

/-- Attempt the `console\.(error|warn)\s*\(` pattern at the head of `s`,
returning the matched method name. -/
def consoleCallAt (s : List Char) : Option String :=
  if startsWithLit "console.".data s then
    let rest := s.drop 8
    if startsWithLit "error".data rest &&
        ((rest.drop 5).dropWhile isJsWs).head? = some '(' then some "error"
    else if startsWithLit "warn".data rest &&
        ((rest.drop 4).dropWhile isJsWs).head? = some '(' then some "warn"
    else none
  else none

/-- Leftmost match of the console pattern in a line (`line.match(...)`). -/
def findConsoleCall (line : String) : Option String :=
  line.data.tails.findSome? consoleCallAt

structure ConsoleViolation where
  line : Nat
  method : String
  content : String
  guidance : String
deriving DecidableEq

structure ConsoleCat where
  violations : List ConsoleViolation
  count : Nat
  status : Status
deriving DecidableEq

/-- The violation list accumulated by the line loop of `analyzeConsoleErrors`
(the source splits on `'\n'` alone). -/
def consoleViolations (content : String) : List ConsoleViolation :=
  (((splitOnChar '\n' content.data).map String.mk).enum.filterMap fun li =>
    (findConsoleCall li.2).map fun method =>
      { line := li.1 + 1
        method := method
        content := jsTrim li.2
        guidance := "Replace console." ++ method ++ " with proper error throwing." })

/-- `analyzeConsoleErrors` on the content of the file (the surrounding
`try/catch` is covered by `readFileSmart` returning the empty string). -/
def analyzeConsoleErrors (content : String) : ConsoleCat :=
  let violations := consoleViolations content
  { violations := violations
    count := violations.length
    status := if violations.length = 0 then .PASS else .FAIL }

/-! ## Per-file result model (`code-review.js` main, lines 485-522)

Every analyzed file gets one `PerFileResult`.  The categories carry exactly
the fields the JavaScript objects carry (timing fields and long guidance
strings elided).  `typescriptCompiler`, `deadCode` and `duplicates` start
absent and are attached by the merge phase, which the JavaScript encodes by
assigning the property later; absence is `none` here. -/

structure EslintMsg where
  line : Nat
  column : Nat
  message : String
deriving DecidableEq

structure TscErr where
  line : Nat
  column : Nat
  code : String
  message : String
deriving DecidableEq

structure CommentViolation where
  line : Nat
  kind : String
  content : String
deriving DecidableEq

structure SizeCat where
  lines : Nat
  limit : Option Nat
  status : Status
deriving DecidableEq

structure CommentsCat where
  count : Nat
  status : Status
  violations : List CommentViolation
deriving DecidableEq

structure EslintCat where
  errors : List EslintMsg
  warnings : List EslintMsg
deriving DecidableEq

structure TsHeurCat where
  status : Status
  details : List String
deriving DecidableEq

structure FallbackCat where
  status : Status
  violations : List String
deriving DecidableEq

structure TscCompilerCat where
  errorCount : Nat
  errors : List TscErr
  status : Status
deriving DecidableEq

structure DeadCodeCat where
  unusedExports : Nat
  unusedTypes : Nat
  unusedExportedTypes : Nat
  status : Status
  recommendations : List String
  unusedFile : Bool
deriving DecidableEq

/-- One duplicate segment attributed to a file by `applyJscpdToResults`. -/
structure DupSeg where
  otherFile : String
  lines : Int
  tokens : Int
  startLine : Int
  endLine : Int
  otherStartLine : Int
  otherEndLine : Int
deriving DecidableEq

structure DupCat where
  count : Nat
  segments : List DupSeg
  status : Status
  recommendations : List String
deriving DecidableEq

structure PerFileResult where
  filePath : String
  relPath : String
  fileType : String
  size : SizeCat
  comments : CommentsCat
  consoleErrors : ConsoleCat
  eslint : EslintCat
  typescript : TsHeurCat
  fallbackData : FallbackCat
  typescriptCompiler : Option TscCompilerCat
  deadCode : Option DeadCodeCat
  duplicates : Option DupCat
deriving DecidableEq

/-- `FILE_SIZE_LIMITS` (`components/utils/filters.js`). -/
def FILE_SIZE_LIMITS (fileType : String) : Option Nat :=
  if fileType = "components" then some 150
  else if fileType = "hooks" then some 100
  else if fileType = "types" then some 100
  else if fileType = "utils" then some 50
  else if fileType = "routes" then some 100
  else if fileType = "services" then some 100
  else if fileType = "repositories" then some 100
  else none

/-- `countLines` (`components/utils/fs-utils.js`): 0 for empty content,
otherwise the number of `\r?\n`-separated pieces (stripping the `\r` of a
separator does not change the piece count). -/
def countLines (content : String) : Nat :=
  if content = "" then 0
  else (splitOnChar '\n' content.data).length

/-- The size category (`code-review.js` line 492):
FAIL exactly when a numeric limit exists and `lines > limit`. -/
def sizeCat (lines : Nat) (limit : Option Nat) : SizeCat :=
  { lines := lines
    limit := limit
    status :=
      match limit with
      | some l => if l < lines then .FAIL else .PASS
      | none => .PASS }

/-- Modelled from the spec (data model section): the number of violation
records a size category carries.  The source object `{ lines, limit, status }`
holds no violation records, so the count is zero for every size category. -/
def sizeViolationRecordCount (_ : SizeCat) : Nat := 0

/-- The comments category (`code-review.js` line 497). -/
def commentsCat (arr : List CommentViolation) : CommentsCat :=
  { count := arr.length
    status := if arr.length = 0 then .PASS else .FAIL
    violations := arr }

/-- The result record of `analyzeTypeScript` (`analyze-typescript.js`, final
return): status derives from the missing-return-type details alone (the
`totalFunctions`/`hasExplicitTypes` companion fields are elided). -/
def typeScriptCat (missingDetails : List String) : TsHeurCat :=
  { status := if missingDetails.length = 0 then .PASS else .FAIL
    details := missingDetails }

/-- The result record of `analyzeFallbackData` (`analyze-fallback.js`, final
return): status derives from the violations list alone. -/
def fallbackCat (violations : List String) : FallbackCat :=
  { status := if violations.length = 0 then .PASS else .FAIL
    violations := violations }

/-- Per-file ESLint lookup (`code-review.js` line 508): the batch map entry or
the safe fallback `runEslint` returning empty lists. -/
def eslintForFile (useBatch : Bool) (eslintMap : String → Option EslintCat)
    (filePath : String) : EslintCat :=
  if useBatch then (eslintMap filePath).getD ⟨[], []⟩ else ⟨[], []⟩

/-- The per-file mapper body of the main `mapLimit` call
(`code-review.js` lines 485-521).  The internal scanning of the
comment/typescript/fallback analyzers is not cited by the properties below,
so their violation lists are taken as parameters and wrapped in the result
records the analyzers return; size, comments, console and eslint are built
exactly as in the source (the react category is elided -- it carries no
status). -/
def buildPerFileResult (filePath relPath fileType : String) (content : String)
    (commentsArr : List CommentViolation) (missingDetails : List String)
    (fallbackViolations : List String) (useBatch : Bool)
    (eslintMap : String → Option EslintCat) : PerFileResult :=
  { filePath := filePath
    relPath := relPath
    fileType := fileType
    size := sizeCat (countLines content) (FILE_SIZE_LIMITS fileType)
    comments := commentsCat commentsArr
    consoleErrors := analyzeConsoleErrors content
    eslint := eslintForFile useBatch eslintMap filePath
    typescript := typeScriptCat missingDetails
    fallbackData := fallbackCat fallbackViolations
    typescriptCompiler := none
    deadCode := none
    duplicates := none }

/-- Attach TSC diagnostics per file (`code-review.js` lines 537-544):
status FAIL exactly when the file has diagnostics. -/
def attachTsc (byFile : String → List TscErr) (toRel : String → String)
    (r : PerFileResult) : PerFileResult :=
  let errs := byFile (toRel r.filePath)
  let cat : TscCompilerCat :=
    { errorCount := errs.length
      errors := errs
      status := if errs.length = 0 then .PASS else .FAIL }
  { r with typescriptCompiler := some cat }

/-! ## Duplicate-code merge (`components/merge/jscpd.js`, `applyJscpdToResults`)

Each reported clone pair is fanned out into two per-file segment records, one
pushed under each participating file, each mirroring the other side's span. -/

/-- One clone pair as parsed from the duplicate detector: two spans plus the
optional `lines`/`tokens` counts.  The source span fields are called `start`
and `end`; `end` is a Lean keyword, hence `endL`. -/
structure DupSpan where
  name : String
  start : Int
  endL : Int
deriving DecidableEq

structure Dup where
  firstFile : DupSpan
  secondFile : DupSpan
  lines : Option Int
  tokens : Option Int
deriving DecidableEq

/-- `typeof dup.lines === 'number' ? dup.lines : (first.end - first.start + 1 || 0)`. -/
def dupLines (d : Dup) : Int :=
  match d.lines with
  | some n => n
  | none =>
      let v := d.firstFile.endL - d.firstFile.start + 1
      if v = 0 then 0 else v

/-- `typeof dup.tokens === 'number' ? dup.tokens : 0`. -/
def dupTokens (d : Dup) : Int :=
  match d.tokens with
  | some n => n
  | none => 0

/-- The record pushed under the first file of the pair. -/
def segOfFirst (d : Dup) (toRel : String → String) : DupSeg :=
  { otherFile := toRel d.secondFile.name
    lines := dupLines d
    tokens := dupTokens d
    startLine := d.firstFile.start
    endLine := d.firstFile.endL
    otherStartLine := d.secondFile.start
    otherEndLine := d.secondFile.endL }

/-- The record pushed under the second file of the pair. -/
def segOfSecond (d : Dup) (toRel : String → String) : DupSeg :=
  { otherFile := toRel d.firstFile.name
    lines := dupLines d
    tokens := dupTokens d
    startLine := d.secondFile.start
    endLine := d.secondFile.endL
    otherStartLine := d.firstFile.start
    otherEndLine := d.firstFile.endL }

/-- The two `pushSegment` calls a pair performs, in order. -/
def dupPushes (toRel : String → String) (d : Dup) : List (String × DupSeg) :=
  [(toRel d.firstFile.name, segOfFirst d toRel),
   (toRel d.secondFile.name, segOfSecond d toRel)]

/-- All pushes of the `for (const dup of dups)` loop. -/
def allDupPushes (toRel : String → String) (dups : List Dup) :
    List (String × DupSeg) :=
  dups.flatMap (dupPushes toRel)

/-- `segmentsByFile.get(fileRel) || []`: pushes under one file, in push order. -/
def segmentsForFile (toRel : String → String) (dups : List Dup)
    (fileRel : String) : List DupSeg :=
  ((allDupPushes toRel dups).filter fun p => p.1 = fileRel).map (·.2)

/-- The per-file assignment loop of `applyJscpdToResults`
(lines 298-307): status FAIL exactly when the file received segments. -/
def applyJscpdToResults (toRel : String → String) (dups : List Dup)
    (results : List PerFileResult) : List PerFileResult :=
  results.map fun r =>
    let segs := segmentsForFile toRel dups (toRel r.filePath)
    let cat : DupCat :=
      { count := segs.length
        segments := segs
        status := if 0 < segs.length then .FAIL else .PASS
        recommendations :=
          if 0 < segs.length then
            ["Extract shared logic into a utility/component to remove duplication."]
          else [] }
    { r with duplicates := some cat }

/-! ## Dead-code merge (`components/merge/knip.js`, `applyKnipToResults`)

The detector report carries a top-level `files` list (wholly unused files)
and an `issues` list with per-file candidate arrays.  File keys are the
repo-relative strings (`toRepoRelative` applied by the caller); candidate
entries are their names (the `toName` projection applied).  Only the `types`
array of each issue feeds the occurrence re-scan: `typeCandidatesByFile` is
built from `item.types` alone, and the bounded worker splits those names by
counting `\b<name>\b` occurrences in the file's own text. -/

structure KnipIssueItem where
  file : String
  exports : List String
  types : List String
  enumMembers : List (String × List String)
  classMembers : List (String × List String)
  unlisted : List String
  unresolved : List String
deriving DecidableEq

structure KnipData where
  files : List String
  issues : List KnipIssueItem
deriving DecidableEq

/-- `Set.add`: insert preserving first-insertion order. -/
def addUnique (acc : List String) (n : String) : List String :=
  if n ∈ acc then acc else acc ++ [n]

/-- `typeCandidatesByFile.get(file)`: the set of type-candidate names
collected for one file from the `types` arrays of its issue entries. -/
def typeCandidates (issues : List KnipIssueItem) (file : String) : List String :=
  issues.foldl
    (fun acc it => if it.file = file then it.types.foldl addUnique acc else acc) []

/-- The worker's per-name test: the file was readable and the name occurs
more than once (the loop breaks once the count exceeds 1). -/
def isInternallyReferenced (content name : String) : Bool :=
  content ≠ "" && 2 ≤ wbCount name content

/-- The worker's split of one file's candidate names into
`(unused, unusedExported)`.  The JavaScript loop pushes each name into
exactly one of the two arrays in input order, which is the partition below
(`!content` sends every name to `unused`, matching `isInternallyReferenced`
being false on empty content). -/
def splitCandidates (content : String) (names : List String) :
    List String × List String :=
  (names.filter fun n => !isInternallyReferenced content n,
   names.filter fun n => isInternallyReferenced content n)

/-- `analyzeResults.get(fileKey)`: present only for files that had type
candidates, holding the worker's split. -/
def analyzeResultsFor (knip : KnipData) (fileContent : String → String)
    (file : String) : Option (List String × List String) :=
  let names := typeCandidates knip.issues file
  if names.isEmpty then none
  else some (splitCandidates (fileContent file) names)

/-- Count of unused enum or class members of one issue entry. -/
def memberCount (groups : List (String × List String)) : Nat :=
  (groups.map fun g => g.2.length).sum

/-- The split used for one issue item inside the merge loop (lines 127-129):
the worker's buckets when the file was analyzed, otherwise all `types` names
count as unused and none as unused-exported. -/
def itemTypeSplit (knip : KnipData) (fileContent : String → String)
    (item : KnipIssueItem) : List String × List String :=
  match analyzeResultsFor knip fileContent item.file with
  | some split => split
  | none => (item.types, [])

/-- The `deadCode` record assigned for one issue item (lines 160-179;
name lists for enum/class members elided, counts kept). -/
def dcOfItem (knip : KnipData) (fileContent : String → String)
    (item : KnipIssueItem) : DeadCodeCat :=
  let split := itemTypeSplit knip fileContent item
  let any :=
    0 < item.exports.length ∨ 0 < split.1.length ∨ 0 < split.2.length ∨
    0 < memberCount item.enumMembers ∨ 0 < memberCount item.classMembers ∨
    0 < item.unlisted.length ∨ 0 < item.unresolved.length
  { unusedExports := item.exports.length
    unusedTypes := split.1.length
    unusedExportedTypes := split.2.length
    status := if any then .FAIL else .PASS
    recommendations := []
    unusedFile := false }

/-- The `deadCode` record pre-marked for a file the detector reports as
wholly unused (`merge/knip.js` lines 97-113): status FAIL and the deletion
guidance, with no candidate name lists or counts attached. -/
def unusedFilePreMark : DeadCodeCat :=
  { unusedExports := 0
    unusedTypes := 0
    unusedExportedTypes := 0
    status := .FAIL
    recommendations :=
      ["Candidate for deletion. Investigate thoroughly (check dynamic imports, runtime requires, config/test/tooling references). If truly unused, delete the file rather than archiving or excluding it."]
    unusedFile := true }

/-- The pre-mark loop over `details.unusedFiles` (`merge/knip.js` lines
97-113), applied to one per-file result whose `deadCode` is still absent at
that point in the merge. -/
def applyUnusedFilePreMark (knipFiles : List String) (toRel : String → String)
    (r : PerFileResult) : PerFileResult :=
  if toRel r.filePath ∈ knipFiles then { r with deadCode := some unusedFilePreMark }
  else r

/-- `dc.unusedExportNames` for one issue item: the exports candidates are
recorded unchanged -- no occurrence re-scan is applied to them. -/
def dcUnusedExportNames (item : KnipIssueItem) : List String :=
  item.exports

/-- `dc.unusedTypeNames` / `dc.unusedExportedTypeNames` for one issue item. -/
def dcUnusedTypeNames (knip : KnipData) (fileContent : String → String)
    (item : KnipIssueItem) : List String :=
  (itemTypeSplit knip fileContent item).1

def dcUnusedExportedTypeNames (knip : KnipData) (fileContent : String → String)
    (item : KnipIssueItem) : List String :=
  (itemTypeSplit knip fileContent item).2

/-- Aggregate summary of `applyKnipToResults` (lines 11-20 and 131-137). -/
structure KnipSummary where
  unusedFiles : Nat
  unusedExports : Nat
  unusedTypes : Nat
  unusedExportedTypes : Nat
  unusedEnumMembers : Nat
  unusedClassMembers : Nat
  unlistedDependencies : Nat
  unresolvedImports : Nat
deriving DecidableEq

def emptyKnipSummary : KnipSummary := ⟨0, 0, 0, 0, 0, 0, 0, 0⟩

/-- The summary accumulated over all issue items. -/
def knipSummaryOf (knip : KnipData) (fileContent : String → String) : KnipSummary :=
  knip.issues.foldl
    (fun acc item =>
      let split := itemTypeSplit knip fileContent item
      { acc with
        unusedExports := acc.unusedExports + item.exports.length
        unusedTypes := acc.unusedTypes + split.1.length
        unusedExportedTypes := acc.unusedExportedTypes + split.2.length
        unusedEnumMembers := acc.unusedEnumMembers + memberCount item.enumMembers
        unusedClassMembers := acc.unusedClassMembers + memberCount item.classMembers
        unlistedDependencies := acc.unlistedDependencies + item.unlisted.length
        unresolvedImports := acc.unresolvedImports + item.unresolved.length })
    { emptyKnipSummary with unusedFiles := knip.files.length }

/-! ## Dead-code detector runner (`components/repo/run-knip.js`, `runKnip`)

The subprocess either returns output or throws.  On a throw the runner tries
to parse the captured stdout/stderr; when even that fails it does not rethrow
but returns an `{ error, raw }` marker object.  JSON parsing is the external
library, modelled as a parameter. -/

inductive ExecOutcome where
  | ok (stdout stderr : String)
  | threw (stdout stderr message : String)

inductive KnipRunResult where
  | parsed (d : KnipData)
  | errorMarker (message raw : String)
deriving DecidableEq

/-- `runKnip`: parse `stdout || stderr` on success; on a subprocess throw,
attempt to parse the captured output and fall back to the error marker.
(A parse failure in the success branch is caught by the same `catch`, whose
`error.stdout` is then absent, so the marker's `raw` is the empty string.) -/
def runKnip (parseJson : String → Option KnipData) : ExecOutcome → KnipRunResult
  | .ok stdout stderr =>
      let output := jsOr (jsOr stdout stderr) ""
      match parseJson output with
      | some d => .parsed d
      | none => .errorMarker "Failed to run knip: parse error" ""
  | .threw stdout stderr message =>
      let out := jsOr (jsOr stdout stderr) ""
      match parseJson out with
      | some d => .parsed d
      | none => .errorMarker ("Failed to run knip: " ++ message) out

/-- How `applyKnipToResults` reads the runner's value: the defensive
`Array.isArray(knipData?.files)` / `Array.isArray(knipData?.issues)` checks
turn the error-marker object into empty lists. -/
def knipDataForMerge : KnipRunResult → KnipData
  | .parsed d => d
  | .errorMarker _ _ => ⟨[], []⟩

/-! ## Compiler-diagnostics runner (`components/repo/run-tsc.js`, `runTsc`)

On a non-zero compiler exit the captured output is split into lines and each
trimmed line is classified: lines failing the `/error\s+TS\d+/i` prefilter
are skipped by `continue`; the remaining lines are matched against the two
positional formats, then the global file-less form, and finally counted as an
UNKNOWN diagnostic.  Every non-skipped line increments `totalErrors` exactly
once (the `add` helper).  Path normalisation of the captured file names is
environment dependent and elided; captures are kept as raw strings. -/

/-- Split on `/\r?\n/`: split on `'\n'` and strip a trailing `'\r'` from each
piece. -/
def splitLines (out : String) : List String :=
  (splitOnChar '\n' out.data).map fun piece =>
    String.mk (if piece.getLast? = some '\r' then piece.dropLast else piece)

/-- `/error\s+TS\d+/i` matching at the head of `s`. -/
def errorTSAt (s : List Char) : Bool :=
  startsWithCI "error".data s &&
  (let r1 := s.drop 5
   decide (0 < (r1.takeWhile isJsWs).length) &&
   (let r2 := r1.dropWhile isJsWs
    startsWithCI "TS".data r2 && ((r2.drop 2).head?.elim false Char.isDigit)))

/-- `/error\s+TS\d+/i.test(line)`. -/
def hasErrorTS (line : String) : Bool :=
  line.data.tails.any errorTSAt

/-- Numeric value of a digit run (`parseInt` on a `\d+` capture). -/
def natOfDigits (ds : List Char) : Nat :=
  ds.foldl (fun acc c => acc * 10 + (c.toNat - '0'.toNat)) 0

/-- The final `\s*(.+)$` of each diagnostic pattern: greedy whitespace with
one character given back when everything after the colon is whitespace. -/
def msgCapture (s : List Char) : Option String :=
  match s with
  | [] => none
  | _ =>
      let t := s.dropWhile isJsWs
      if t.isEmpty then (s.getLast?).map fun c => String.mk [c]
      else some (String.mk t)

/-- `error\s+TS(\d+):\s*(.+)$` (case-insensitive) matched against all of `s`;
returns the digit capture and the message capture. -/
def matchErrTail (s : List Char) : Option (String × String) :=
  if startsWithCI "error".data s then
    let r1 := s.drop 5
    if (r1.takeWhile isJsWs).isEmpty then none
    else
      let r2 := r1.dropWhile isJsWs
      if startsWithCI "TS".data r2 then
        let r3 := r2.drop 2
        let ds := r3.takeWhile Char.isDigit
        if ds.isEmpty then none
        else
          match r3.drop ds.length with
          | ':' :: r4 => (msgCapture r4).map fun msg => (String.mk ds, msg)
          | _ => none
      else none
  else none

/-- `\((\d+),(\d+)\):\s*error\s+TS(\d+):\s*(.+)$` matched against all of `s`. -/
def matchParenPos (s : List Char) : Option (Nat × Nat × String × String) :=
  match s with
  | '(' :: r1 =>
      let d1 := r1.takeWhile Char.isDigit
      if d1.isEmpty then none
      else
        match r1.drop d1.length with
        | ',' :: r2 =>
            let d2 := r2.takeWhile Char.isDigit
            if d2.isEmpty then none
            else
              match r2.drop d2.length with
              | ')' :: ':' :: r3 =>
                  (matchErrTail (r3.dropWhile isJsWs)).map fun p =>
                    (natOfDigits d1, natOfDigits d2, p.1, p.2)
              | _ => none
        | _ => none
  | _ => none

/-- `:(\d+):(\d+)\s*-\s*error\s+TS(\d+):\s*(.+)$` matched against all of `s`. -/
def matchColonPos (s : List Char) : Option (Nat × Nat × String × String) :=
  match s with
  | ':' :: r1 =>
      let d1 := r1.takeWhile Char.isDigit
      if d1.isEmpty then none
      else
        match r1.drop d1.length with
        | ':' :: r2 =>
            let d2 := r2.takeWhile Char.isDigit
            if d2.isEmpty then none
            else
              match (r2.drop d2.length).dropWhile isJsWs with
              | '-' :: r3 =>
                  (matchErrTail (r3.dropWhile isJsWs)).map fun p =>
                    (natOfDigits d1, natOfDigits d2, p.1, p.2)
              | _ => none
        | _ => none
  | _ => none

/-- Case-insensitive literal match at the end of `s`. -/
def endsWithCI (pat : String) (s : List Char) : Bool :=
  decide (pat.length ≤ s.length) &&
  startsWithCI pat.data (s.drop (s.length - pat.length))

/-- `.*\.(?:ts|tsx)` as a whole-prefix test. -/
def tsFileSuffix (s : List Char) : Bool :=
  endsWithCI ".ts" s || endsWithCI ".tsx" s

/-- Pattern 1, `^(.*\.(?:ts|tsx))\((\d+),(\d+)\):\s*error\s+TS(\d+):\s*(.+)$`:
the greedy `.*` picks the longest file prefix for which the tail matches. -/
def matchPattern1 (s : List Char) : Option (String × Nat × Nat × String × String) :=
  (List.range (s.length + 1)).reverse.findSome? fun i =>
    if tsFileSuffix (s.take i) then
      (matchParenPos (s.drop i)).map fun r => (String.mk (s.take i), r)
    else none

/-- Pattern 2, `^(.*\.(?:ts|tsx)):(\d+):(\d+)\s*-\s*error\s+TS(\d+):\s*(.+)$`. -/
def matchPattern2 (s : List Char) : Option (String × Nat × Nat × String × String) :=
  (List.range (s.length + 1)).reverse.findSome? fun i =>
    if tsFileSuffix (s.take i) then
      (matchColonPos (s.drop i)).map fun r => (String.mk (s.take i), r)
    else none

/-- Classification of one output line by the `for (const raw of lines)` loop. -/
inductive TscLineClass where
  | skipped
  | positional (file : String) (line column : Nat) (code message : String)
  | positionalDash (file : String) (line column : Nat) (code message : String)
  | globalError (code message : String)
  | unknown (message : String)
deriving DecidableEq

/-- One loop iteration of the catch branch of `runTsc`. -/
def classifyTscLine (raw : String) : TscLineClass :=
  let line := jsTrim raw
  if line = "" then .skipped
  else if !hasErrorTS line then .skipped
  else
    match matchPattern1 line.data with
    | some r => .positional r.1 r.2.1 r.2.2.1 ("TS" ++ r.2.2.2.1) r.2.2.2.2
    | none =>
        match matchPattern2 line.data with
        | some r => .positionalDash r.1 r.2.1 r.2.2.1 ("TS" ++ r.2.2.2.1) r.2.2.2.2
        | none =>
            match matchErrTail line.data with
            | some p => .globalError ("TS" ++ p.1) p.2
            | none => .unknown line

/-- Does a classified line increment `totalErrors` (the `add` helper runs)? -/
def TscLineClass.counted : TscLineClass → Bool
  | .skipped => false
  | _ => true

/-- `totalErrors` accumulated by the catch branch over the captured output. -/
def tscCatchTotalErrors (out : String) : Nat :=
  ((splitLines out).map classifyTscLine).countP TscLineClass.counted

/-- `totalErrors` of a whole `runTsc` call: zero on a clean compiler exit,
otherwise the count over `error.stdout || error.stderr || ''`. -/
def runTscTotalErrors : ExecOutcome → Nat
  | .ok _ _ => 0
  | .threw stdout stderr _ => tscCatchTotalErrors (jsOr (jsOr stdout stderr) "")

/-! ## ESLint batch phase (`code-review.js` lines 451-481)

When a project config exists, the file list is processed in sequential
chunks of 200 through `runEslintBatch`; the first chunk that throws aborts
the loop, and the surrounding `catch` marks the step skipped and records a
warning instead of rethrowing -- entries merged from earlier chunks remain in
`eslintMap`. -/

/-- The chunk loop: merge successful chunk maps until the first throw. -/
def runChunks :
    List (Except String (List (String × EslintCat))) →
    List (String × EslintCat) × Option String
  | [] => ([], none)
  | .ok m :: rest =>
      let r := runChunks rest
      (m ++ r.1, r.2)
  | .error msg :: _ => ([], some msg)

/-- The whole batch phase: `(eslintMap, eslintSkipped, repoWarnings added)`.
A missing config skips with a warning; a chunk failure degrades with a
warning; otherwise the merged map is used. -/
def eslintBatchPhase (hasConfig : Bool)
    (chunks : List (Except String (List (String × EslintCat)))) :
    List (String × EslintCat) × Bool × List String :=
  if !hasConfig then
    ([], true, ["Project ESLint config not found; ESLint step skipped."])
  else
    let r := runChunks chunks
    match r.2 with
    | none => (r.1, false, [])
    | some msg => (r.1, true, ["ESLint batch degraded: " ++ msg])

/-- Reading `eslintMap` as the lookup function used at line 508. -/
def eslintMapLookup (m : List (String × EslintCat)) (fp : String) :
    Option EslintCat :=
  (m.find? fun e => e.1 = fp).map (·.2)

/-! ## Report synthesis (`code-review.js` lines 551-986)

The final phase decides `perFileViolation`, `repoViolation`, the written
`results` list (with the synthetic TSC entry), the minimal repo block and the
process exit code. -/

def Status.isFail : Status → Bool
  | .FAIL => true
  | .PASS => false

/-- The per-file violation predicate (line 596; the filter at line 611 lists
exactly the same category checks). -/
def perFileViolationB (r : PerFileResult) : Bool :=
  decide (0 < r.eslint.errors.length) || decide (0 < r.eslint.warnings.length) ||
  r.comments.status.isFail || r.size.status.isFail ||
  r.typescript.status.isFail ||
  (r.typescriptCompiler.elim false fun t => t.status.isFail) ||
  r.consoleErrors.status.isFail || r.fallbackData.status.isFail ||
  (r.deadCode.elim false fun d => d.status.isFail) ||
  (r.duplicates.elim false fun d => d.status.isFail)

structure JscpdSummary where
  groups : Nat
  duplicatedLines : Nat
  percentage : Option ℚ
deriving DecidableEq

/-- `(j.percentage || 0) > 0` (an absent percentage compares as 0). -/
def pctPos (p : Option ℚ) : Bool :=
  match p with
  | some q => decide (0 < q)
  | none => false

/-- `repoViolation` (lines 559-570). -/
def repoViolationB (filteredTotalErrors projectTotalErrors eslintRepoErrors : Nat)
    (ks : KnipSummary) (js : JscpdSummary) : Bool :=
  decide (0 < filteredTotalErrors) || decide (0 < projectTotalErrors) ||
  decide (0 < eslintRepoErrors) ||
  decide (0 < ks.unusedFiles) || decide (0 < ks.unusedExports) ||
  decide (0 < ks.unusedTypes) || decide (0 < ks.unusedExportedTypes) ||
  decide (0 < ks.unusedEnumMembers) || decide (0 < ks.unusedClassMembers) ||
  decide (0 < ks.unlistedDependencies) || decide (0 < ks.unresolvedImports) ||
  decide (0 < js.groups) || decide (0 < js.duplicatedLines) || pctPos js.percentage

/-- `knipFail` (lines 808-816): note `unusedExportedTypes` is absent here,
unlike in `repoViolation`. -/
def knipFailB (ks : KnipSummary) : Bool :=
  decide (0 < ks.unusedFiles) || decide (0 < ks.unusedExports) ||
  decide (0 < ks.unusedTypes) ||
  decide (0 < ks.unusedEnumMembers) || decide (0 < ks.unusedClassMembers) ||
  decide (0 < ks.unlistedDependencies) || decide (0 < ks.unresolvedImports)

/-- The jscpd repo-block guard (line 899). -/
def jscpdFailB (js : JscpdSummary) : Bool :=
  decide (0 < js.groups) || decide (0 < js.duplicatedLines) || pctPos js.percentage

/-- The minimal repo-level block: which keys of `repoOut` are present and
with which payload (detail lists elided; the `knip` entry is modelled by the
summary its counts are seeded from). -/
structure RepoOut where
  tsc : Option Nat
  knip : Option KnipSummary
  jscpd : Option JscpdSummary
  actions : List String
  warnings : List String
deriving DecidableEq

/-- `Object.keys(repoOut).length > 0` is the negation of this. -/
def RepoOut.isEmpty (ro : RepoOut) : Bool :=
  ro.tsc.isNone && ro.knip.isNone && ro.jscpd.isNone &&
  ro.actions.isEmpty && ro.warnings.isEmpty

/-- `repoActions` (lines 921-933).  The conditions read the seeded count
fields of `repoOut.knip`, which exist exactly when the summary count is
positive, so they are evaluated on the stored summary. -/
def repoActionsOf (tsc : Option Nat) (knip : Option KnipSummary)
    (jscpd : Option JscpdSummary) (eslintRepoErrors : Nat) : List String :=
  (if tsc.elim false (fun t => decide (0 < t)) then
    ["Run project-wide TypeScript check and resolve all errors"] else []) ++
  (if 0 < eslintRepoErrors then
    ["Fix ESLint errors across authored roots."] else []) ++
  (if knip.elim false (fun s => decide (0 < s.unusedExportedTypes)) then
    ["Make exported type(s) internal when only used within file."] else []) ++
  (if knip.elim false (fun s => decide (0 < s.unusedExports)) then
    ["Remove unused exported symbols or fix references."] else []) ++
  (if knip.elim false (fun s => decide (0 < s.unusedFiles)) then
    ["Remove unused files identified by Knip."] else []) ++
  (if knip.elim false (fun s => decide (0 < s.unusedTypes)) then
    ["Remove truly unused types or inline where clearer."] else []) ++
  (if knip.elim false
      (fun s => decide (0 < s.unresolvedImports) || decide (0 < s.unlistedDependencies)) then
    ["Fix unresolved imports and add missing dependencies."] else []) ++
  (if knip.elim false (fun s => decide (0 < s.unusedEnumMembers)) then
    ["Remove unused enum member(s)."] else []) ++
  (if knip.elim false (fun s => decide (0 < s.unusedClassMembers)) then
    ["Remove unused class member(s)."] else []) ++
  (if jscpd.elim false (fun s => decide (0 < s.groups)) then
    ["Refactor duplicated code groups reported by jscpd"] else [])

/-- `repoOut` before warnings are appended (lines 789-933): the `tsc` block
requires unsuppressed merged-gate errors, the `knip` block requires
`knipFail`, the `jscpd` block requires its guard, and `actions` is attached
when non-empty. -/
def buildRepoOut (filteredTotalErrors eslintRepoErrors : Nat)
    (ks : KnipSummary) (js : JscpdSummary) : RepoOut :=
  let tsc := if 0 < filteredTotalErrors then some filteredTotalErrors else none
  let knip := if knipFailB ks then some ks else none
  let jscpd := if jscpdFailB js then some js else none
  { tsc := tsc
    knip := knip
    jscpd := jscpd
    actions := repoActionsOf tsc knip jscpd eslintRepoErrors
    warnings := [] }

/-- One entry of the written `results` array (issue messages and guidance
strings elided; source tag and line kept). -/
structure Issue where
  source : String
  line : Int
deriving DecidableEq

structure MinimalFile where
  relPath : String
  issues : List Issue
deriving DecidableEq

/-- `minimalizeFile` (lines 640-737): one issue per failing violation record,
in the source's category order.  An empty issue list models the absent
`issues` key. -/
def minimalizeFile (r : PerFileResult) : MinimalFile :=
  { relPath := r.relPath
    issues :=
      (if r.size.status.isFail then [⟨"size", 0⟩] else []) ++
      ((r.eslint.errors ++ r.eslint.warnings).map fun m =>
        (⟨"eslint", (m.line : Int)⟩ : Issue)) ++
      (if r.comments.status.isFail then
        r.comments.violations.map fun v => (⟨"comments", (v.line : Int)⟩ : Issue)
       else []) ++
      (if r.consoleErrors.status.isFail then
        r.consoleErrors.violations.map fun v => (⟨"console", (v.line : Int)⟩ : Issue)
       else []) ++
      (if r.typescript.status.isFail then
        r.typescript.details.map fun _ => (⟨"ts-heuristics", 0⟩ : Issue)
       else []) ++
      (match r.typescriptCompiler with
       | some t =>
           if t.status.isFail then t.errors.map fun e => (⟨"tsc", (e.line : Int)⟩ : Issue)
           else []
       | none => []) ++
      (if r.fallbackData.status.isFail then
        r.fallbackData.violations.map fun _ => (⟨"fallback", 0⟩ : Issue)
       else []) ++
      (match r.duplicates with
       | some d =>
           if d.status.isFail then d.segments.map fun s => (⟨"jscpd", s.startLine⟩ : Issue)
           else []
       | none => []) }

/-- The synthetic `(repo) TypeScript Compiler` entry pushed when only the
merged TSC gate failed (lines 616-637). -/
def syntheticTscResult (filteredByFile : List (String × List TscErr)) :
    PerFileResult :=
  let flatErrors := (filteredByFile.map (·.2)).flatten
  { filePath := "(repo) TypeScript Compiler"
    relPath := "__global__"
    fileType := "ts"
    size := ⟨0, none, .PASS⟩
    comments := ⟨0, .PASS, []⟩
    consoleErrors := ⟨[], 0, .PASS⟩
    eslint := ⟨[], []⟩
    typescript := ⟨.PASS, []⟩
    fallbackData := ⟨.PASS, []⟩
    typescriptCompiler :=
      some ⟨flatErrors.length, flatErrors,
        if 0 < flatErrors.length then .FAIL else .PASS⟩
    deadCode := none
    duplicates := none }

/-- The emitted report (`payload`) reduced to the fields the properties
mention, plus the process exit code. -/
structure Report where
  status : String
  results : List MinimalFile
  repo : Option RepoOut
  hasExecutionPlan : Bool
deriving DecidableEq

/-- Everything the report-writing stage consumes. -/
structure ReportInputs where
  results : List PerFileResult
  reportAll : Bool
  filteredByFile : List (String × List TscErr)
  projectTotalErrors : Nat
  eslintRepoErrors : Nat
  knipSummary : KnipSummary
  jscpdSummary : JscpdSummary
  repoWarnings : List String

/-- `filteredTotalErrors` (line 553): the sum over the merged-gate `byFile`. -/
def filteredTotalErrorsOf (inp : ReportInputs) : Nat :=
  (inp.filteredByFile.map fun e => e.2.length).sum

/-- `anyViolation` (line 603): some per-file category failed or some
repo-wide gate failed. -/
def anyViolationOf (inp : ReportInputs) : Bool :=
  inp.results.any perFileViolationB ||
  repoViolationB (filteredTotalErrorsOf inp) inp.projectTotalErrors
    inp.eslintRepoErrors inp.knipSummary inp.jscpdSummary

/-- `resultsToWrite` (lines 609-613). -/
def resultsToWriteOf (inp : ReportInputs) : List PerFileResult :=
  if anyViolationOf inp then
    if inp.reportAll then inp.results else inp.results.filter perFileViolationB
  else
    if inp.reportAll then inp.results else []

/-- `resultsToWrite` after the synthetic TSC push (lines 616-637). -/
def resultsWithSyntheticOf (inp : ReportInputs) : List PerFileResult :=
  if anyViolationOf inp && (resultsToWriteOf inp).isEmpty &&
      decide (0 < filteredTotalErrorsOf inp) then
    resultsToWriteOf inp ++ [syntheticTscResult inp.filteredByFile]
  else resultsToWriteOf inp

/-- `repoOut` after the warning append of the fail branch (lines 948-950). -/
def repoOutOf (inp : ReportInputs) : RepoOut :=
  let ro :=
    buildRepoOut (filteredTotalErrorsOf inp) inp.eslintRepoErrors
      inp.knipSummary inp.jscpdSummary
  if inp.repoWarnings.isEmpty then ro
  else { ro with warnings := ro.warnings ++ inp.repoWarnings }

/-- The report-writing stage (lines 595-986): violation detection, results
selection with the synthetic TSC entry, minimal repo block, pass/fail payload
and exit code. -/
def buildReport (inp : ReportInputs) : Report × Nat :=
  if anyViolationOf inp then
    ({ status := "fail"
       results := (resultsWithSyntheticOf inp).map minimalizeFile
       repo := if (repoOutOf inp).isEmpty then none else some (repoOutOf inp)
       hasExecutionPlan := true }, 1)
  else
    ({ status := "pass"
       results := []
       repo := none
       hasExecutionPlan := false }, 0)

/-! ## Concrete sample inputs used by witnesses and counterexamples -/

/-- A clone pair: `a.ts` lines 1-10 duplicate `b.ts` lines 21-30. -/
def sampleDup : Dup :=
  { firstFile := { name := "a.ts", start := 1, endL := 10 }
    secondFile := { name := "b.ts", start := 21, endL := 30 }
    lines := some 10
    tokens := some 80 }

/-- 51 lines of content: 50 `x\n` pairs followed by a final `x`. -/
def sample51Lines : String :=
  String.mk ((List.replicate 50 ['x', '\n']).flatten ++ ['x'])

/-- File text in which the symbol `foo` occurs twice with word boundaries. -/
def sampleFooContent : String := "export function foo() {} foo();"

/-- A detector issue entry reporting `foo` as an unused export of `a.ts`. -/
def sampleExportIssue : KnipIssueItem :=
  { file := "a.ts", exports := ["foo"], types := []
    enumMembers := [], classMembers := [], unlisted := [], unresolved := [] }

def sampleExportKnip : KnipData := ⟨[], [sampleExportIssue]⟩

/-- A detector issue entry reporting type `Foo` as unused in `a.ts`. -/
def sampleTypeIssue : KnipIssueItem :=
  { file := "a.ts", exports := [], types := ["Foo"]
    enumMembers := [], classMembers := [], unlisted := [], unresolved := [] }

def sampleTypeKnip : KnipData := ⟨[], [sampleTypeIssue]⟩

/-- File text in which the type name `Foo` occurs twice. -/
def sampleFooTypeContent : String := "type Foo = number; export const y: Foo = 1;"

/-- Report inputs where only the project-tsconfig compiler gate failed. -/
def projectGateOnlyInputs : ReportInputs :=
  { results := [], reportAll := false, filteredByFile := []
    projectTotalErrors := 1, eslintRepoErrors := 0
    knipSummary := emptyKnipSummary
    jscpdSummary := ⟨0, 0, none⟩, repoWarnings := [] }

/-- Report inputs with nothing failing at all. -/
def cleanReportInputs : ReportInputs :=
  { results := [], reportAll := false, filteredByFile := []
    projectTotalErrors := 0, eslintRepoErrors := 0
    knipSummary := emptyKnipSummary
    jscpdSummary := ⟨0, 0, none⟩, repoWarnings := [] }

/-- Report inputs where only the repo-wide ESLint gate failed. -/
def eslintGateOnlyInputs : ReportInputs :=
  { results := [], reportAll := false, filteredByFile := []
    projectTotalErrors := 0, eslintRepoErrors := 3
    knipSummary := emptyKnipSummary
    jscpdSummary := ⟨0, 0, none⟩, repoWarnings := [] }

/-- Report inputs where only the merged-tsconfig compiler gate failed. -/
def tscGateOnlyInputs : ReportInputs :=
  { results := [], reportAll := false
    filteredByFile := [("app/a.ts", [⟨3, 5, "TS2304", "Cannot find name"⟩])]
    projectTotalErrors := 0, eslintRepoErrors := 0
    knipSummary := emptyKnipSummary
    jscpdSummary := ⟨0, 0, none⟩, repoWarnings := [] }

/-- Report inputs that are clean apart from a knip infrastructure fault
consumed as zero findings. -/
def knipFaultInputs : ReportInputs :=
  { results := [], reportAll := false, filteredByFile := []
    projectTotalErrors := 0, eslintRepoErrors := 0
    knipSummary :=
      knipSummaryOf
        (knipDataForMerge
          (runKnip (fun _ => none) (.threw "not json" "" "Command failed")))
        (fun _ => "")
    jscpdSummary := ⟨0, 0, none⟩, repoWarnings := [] }

/-! # Theorems -/

/-! ## Supporting lemmas -/

/-- `runNext` never raises `active` above the bound. -/
theorem runNext_active_le (N : Nat) (s : LimiterState) (h : s.active ≤ N) :
    (runNext N s).active ≤ N := by
  unfold runNext
  by_cases hN : N ≤ s.active
  · simpa [hN] using h
  · simp only [if_neg hN]
    cases hq : s.queue with
    | nil => simpa using h
    | cons a rest => simp only []; omega

/-- Slot contents after a list of settlement writes. -/
theorem applyWrites_apply {α β : Type} (items : List α) (f : α → Nat → β)
    (order : List (Fin items.length)) (acc : Fin items.length → Option β)
    (i : Fin items.length) :
    applyWrites items f order acc i =
      if i ∈ order then some (f (items.get i) i.val) else acc i := by
  induction order generalizing acc with
  | nil => simp [applyWrites]
  | cons j rest ih =>
      simp only [applyWrites]
      rw [ih]
      by_cases hir : i ∈ rest
      · simp [hir]
      · by_cases hij : i = j
        · subst hij
          simp [hir, Function.update_apply]
        · simp [hir, hij, Function.update_apply]

/-- A successful job's slot after all settlements: written exactly when the
job settled. -/
theorem settleWrites_ok {β ε : Type} {n : Nat} (outcomes : Fin n → Except ε β)
    (order : List (Fin n)) (acc : Fin n → Option β) (j : Fin n) (b : β)
    (hj : outcomes j = .ok b) :
    settleWrites outcomes order acc j = if j ∈ order then some b else acc j := by
  induction order generalizing acc with
  | nil => simp [settleWrites]
  | cons i rest ih =>
      simp only [settleWrites]
      cases hoi : outcomes i with
      | error e =>
          rw [ih]
          by_cases hij : j = i
          · subst hij
            rw [hoi] at hj
            exact absurd hj (by simp)
          · simp [hij]
      | ok bi =>
          rw [ih]
          by_cases hir : j ∈ rest
          · simp [hir]
          · by_cases hij : j = i
            · subst hij
              rw [hoi] at hj
              injection hj with hb
              simp [hir, Function.update_apply, hb]
            · simp [hir, hij, Function.update_apply]

/-- The first settlement-order rejection is the one `Promise.all` reports. -/
theorem firstErr_spec {β ε : Type} {n : Nat} (outcomes : Fin n → Except ε β)
    (pre post : List (Fin n)) (i : Fin n) (e : ε)
    (hpre : ∀ j ∈ pre, ∀ e', outcomes j ≠ .error e')
    (hi : outcomes i = .error e) :
    firstErr outcomes (pre ++ i :: post) = some e := by
  induction pre with
  | nil => simp [firstErr, List.findSome?_cons, hi]
  | cons a pre ih =>
      have ha := hpre a (by simp)
      cases hoa : outcomes a with
      | error e' => exact absurd hoa (ha e')
      | ok b =>
          simp only [List.cons_append, firstErr, List.findSome?_cons, hoa]
          exact ih fun j hj => hpre j (by simp [hj])

/-- The fan-out loop pushes exactly two records per reported pair. -/
theorem allDupPushes_length (toRel : String → String) (dups : List Dup) :
    (allDupPushes toRel dups).length = 2 * dups.length := by
  induction dups with
  | nil => rfl
  | cons a rest ih =>
      have hsplit : allDupPushes toRel (a :: rest)
          = dupPushes toRel a ++ allDupPushes toRel rest := by
        simp [allDupPushes]
      rw [hsplit, List.length_append, ih]
      simp only [dupPushes, List.length_cons, List.length_nil]
      omega

/-- `repoActions` always contains the repo-wide ESLint remediation entry when
that gate reported errors. -/
theorem repoActionsOf_ne_nil {t : Option Nat} {k : Option KnipSummary}
    {j : Option JscpdSummary} {e : Nat} (he : 0 < e) :
    repoActionsOf t k j e ≠ [] := by
  simp [repoActionsOf, he]

/-! ## C7: concurrency bound -/

/-- **C7.** For every run of the bounded-parallelism limiter with bound
`N ≥ 1`, at every reachable scheduler state the number of in-flight jobs
(started but not settled, the `active` counter) never exceeds `N`. -/
theorem limiter_concurrency_bound (N : Nat) (_hN : 1 ≤ N) (s : LimiterState)
    (h : LimiterReachable N s) : s.active ≤ N := by
  induction h with
  | refl => simp
  | tail _ step ih =>
      cases step with
      | add j t => exact runNext_active_le N _ ih
      | settle t ht => exact runNext_active_le N _ (by simp; omega)

/-- Witness for C7: after enqueueing one job from the initial state with
bound 1, the bound holds at the resulting state. -/
theorem limiter_concurrency_bound_witness :
    (runNext 1 ⟨0, [0]⟩ : LimiterState).active ≤ 1 :=
  limiter_concurrency_bound 1 (by decide) _
    (Relation.ReflTransGen.single (LimiterStep.add 0 ⟨0, []⟩))

/-! ## C8: order preservation -/

/-- **C8.** For every input list and complete settlement order (every index
settles, in any order), `mapLimit` returns an array of the same length as
the input whose `i`-th slot holds the value the mapper computed for the
`i`-th input. -/
theorem mapLimit_preserves_input_order {α β : Type} (items : List α)
    (f : α → Nat → β) (order : List (Fin items.length))
    (hcomplete : ∀ i : Fin items.length, i ∈ order) :
    (mapLimitArray items f order).length = items.length ∧
    mapLimitArray items f order =
      (List.finRange items.length).map fun i => some (f (items.get i) i.val) := by
  constructor
  · simp [mapLimitArray]
  · unfold mapLimitArray mapLimitSlots
    refine List.map_congr_left fun i _ => ?_
    rw [applyWrites_apply]
    simp [hcomplete i]

/-- Witness for C8: two items settling in reverse order still fill the
array in input order. -/
theorem mapLimit_preserves_input_order_witness :
    (mapLimitArray [10, 20] (fun a i => a + i) [⟨1, by decide⟩, ⟨0, by decide⟩]).length = 2 ∧
    mapLimitArray [10, 20] (fun a i => a + i) [⟨1, by decide⟩, ⟨0, by decide⟩] =
      (List.finRange 2).map fun i => some ([10, 20].get i + i.val) :=
  mapLimit_preserves_input_order [10, 20] (fun a i => a + i)
    [⟨1, by decide⟩, ⟨0, by decide⟩] (by decide)

/-! ## C6: error propagation without cancellation -/

/-- **C6.** For every input sequence, bound `N ≥ 1` and complete settlement
order in which the job at index `i` is the first to reject, `mapLimit`
rejects with exactly that error, while every sibling job that succeeded has
still run and written its result into the results array (settlement of every
index is unaffected by the failure). -/
theorem mapLimit_error_isolation {β ε : Type} (N : Nat) (_hN : 1 ≤ N) {n : Nat}
    (outcomes : Fin n → Except ε β) (order pre post : List (Fin n)) (i : Fin n)
    (e : ε) (horder : order = pre ++ i :: post)
    (hcomplete : ∀ k : Fin n, k ∈ order)
    (hpre : ∀ j ∈ pre, ∀ e', outcomes j ≠ .error e')
    (hi : outcomes i = .error e) :
    mapLimitOutcome outcomes order = .error e ∧
    ∀ j b, outcomes j = .ok b →
      settleWrites outcomes order (fun _ => none) j = some b := by
  subst horder
  constructor
  · unfold mapLimitOutcome
    rw [firstErr_spec outcomes pre post i e hpre hi]
  · intro j b hj
    rw [settleWrites_ok outcomes _ _ j b hj]
    simp [hcomplete j]

/-- Witness for C6: of three jobs settling as `0, 1, 2`, job 1 rejects with
error 7; the run rejects with 7 and job 2's result is still recorded. -/
theorem mapLimit_error_isolation_witness :
    mapLimitOutcome
        (fun i : Fin 3 => if i.val = 1 then Except.error 7 else Except.ok (10 * i.val))
        [0, 1, 2] = Except.error 7 ∧
    settleWrites
        (fun i : Fin 3 => if i.val = 1 then Except.error 7 else Except.ok (10 * i.val))
        [0, 1, 2] (fun _ => none) 2 = some 20 := by
  have h := mapLimit_error_isolation 2 (by decide)
    (fun i : Fin 3 => if i.val = 1 then Except.error 7 else Except.ok (10 * i.val))
    [0, 1, 2] [0] [2] 1 7 rfl (by decide)
    (by intro j hj e'; fin_cases hj; simp)
    rfl
  exact ⟨h.1, h.2 2 20 rfl⟩

/-! ## C10: write-once file cache -/

/-- **C10.** With caching enabled, the shared read is total (it returns a
string for every file system, including failing ones), the first read's
outcome is stored under the path, and any later read of the same path --
even against a changed or newly readable file system `fs2` -- returns the
identical string and leaves the cache unchanged. -/
theorem readFileSmart_write_once (fs1 fs2 : String → Option String)
    (cache : FileCache) (p : String) :
    cacheGet (readFileSmart true fs1 cache p).2 p
      = some (readFileSmart true fs1 cache p).1 ∧
    readFileSmart true fs2 (readFileSmart true fs1 cache p).2 p
      = readFileSmart true fs1 cache p := by
  have hset : ∀ (c : FileCache) (v : String), cacheGet (cacheSet c p v) p = some v := by
    intro c v
    simp [cacheGet, cacheSet, List.find?]
  simp only [readFileSmart, if_pos rfl, readFileCached]
  cases hc : cacheGet cache p with
  | some v => simp [readFileCached, hc]
  | none =>
      cases hf : fs1 p with
      | some content => simp [readFileCached, hset]
      | none => simp [readFileCached, hset]

/-! ## C5: mirrored duplicate segments -/

/-- **C5.** Every reported clone pair produces exactly two per-file segment
records, pushed under the two participating files, and the records mirror
each other: each record's own span is the other record's `otherFile` span,
with identical `lines` and `tokens`. -/
theorem jscpd_pair_mirrored (toRel : String → String) (dups : List Dup)
    (d : Dup) (hd : d ∈ dups) :
    dupPushes toRel d =
      [(toRel d.firstFile.name, segOfFirst d toRel),
       (toRel d.secondFile.name, segOfSecond d toRel)] ∧
    (segOfFirst d toRel).startLine = d.firstFile.start ∧
    (segOfFirst d toRel).endLine = d.firstFile.endL ∧
    (segOfSecond d toRel).startLine = d.secondFile.start ∧
    (segOfSecond d toRel).endLine = d.secondFile.endL ∧
    (segOfFirst d toRel).otherFile = toRel d.secondFile.name ∧
    (segOfSecond d toRel).otherFile = toRel d.firstFile.name ∧
    (segOfFirst d toRel).otherStartLine = (segOfSecond d toRel).startLine ∧
    (segOfFirst d toRel).otherEndLine = (segOfSecond d toRel).endLine ∧
    (segOfSecond d toRel).otherStartLine = (segOfFirst d toRel).startLine ∧
    (segOfSecond d toRel).otherEndLine = (segOfFirst d toRel).endLine ∧
    (segOfFirst d toRel).lines = (segOfSecond d toRel).lines ∧
    (segOfFirst d toRel).tokens = (segOfSecond d toRel).tokens ∧
    segOfFirst d toRel ∈ segmentsForFile toRel dups (toRel d.firstFile.name) ∧
    segOfSecond d toRel ∈ segmentsForFile toRel dups (toRel d.secondFile.name) ∧
    (allDupPushes toRel dups).length = 2 * dups.length := by
  refine ⟨rfl, rfl, rfl, rfl, rfl, rfl, rfl, rfl, rfl, rfl, rfl, rfl, rfl, ?_, ?_, ?_⟩
  · have h1 : (toRel d.firstFile.name, segOfFirst d toRel) ∈ allDupPushes toRel dups :=
      List.mem_flatMap.mpr ⟨d, hd, by simp [dupPushes]⟩
    exact List.mem_map_of_mem _ (List.mem_filter.mpr ⟨h1, by simp⟩)
  · have h2 : (toRel d.secondFile.name, segOfSecond d toRel) ∈ allDupPushes toRel dups :=
      List.mem_flatMap.mpr ⟨d, hd, by simp [dupPushes]⟩
    exact List.mem_map_of_mem _ (List.mem_filter.mpr ⟨h2, by simp⟩)
  · exact allDupPushes_length toRel dups

/-- Witness for C5: the concrete pair `a.ts:1-10` / `b.ts:21-30`. -/
theorem jscpd_pair_mirrored_witness :
    (segOfFirst sampleDup id).otherStartLine = (segOfSecond sampleDup id).startLine ∧
    segOfFirst sampleDup id ∈ segmentsForFile id [sampleDup] (id sampleDup.firstFile.name) ∧
    (allDupPushes id [sampleDup]).length = 2 * 1 := by
  obtain ⟨-, -, -, -, -, -, -, h8, -, -, -, -, -, h14, -, h16⟩ :=
    jscpd_pair_mirrored id [sampleDup] sampleDup (by decide)
  exact ⟨h8, h14, h16⟩

/-! ## C3: dead-code occurrence reclassification -/

/-- **C3, counterexample.**  The claim says every dead-code candidate whose
name occurs at least twice in its own file is classified "unused-exported",
for all candidate kinds.  An `exports` candidate (`foo`, occurring twice in
`a.ts`) is nonetheless recorded among the unused-export names (the
candidate-for-removal bucket) and contributes nothing to the unused-exported
classification: only `types` candidates feed the occurrence re-scan. -/
theorem knip_reclassification_counterexample :
    2 ≤ wbCount "foo" sampleFooContent ∧
    dcUnusedExportNames sampleExportIssue = ["foo"] ∧
    dcUnusedExportedTypeNames sampleExportKnip (fun _ => sampleFooContent)
      sampleExportIssue = [] ∧
    (knipSummaryOf sampleExportKnip (fun _ => sampleFooContent)).unusedExports = 1 ∧
    (knipSummaryOf sampleExportKnip (fun _ => sampleFooContent)).unusedExportedTypes
      = 0 := by
  decide

/-- **C3, amended.**  Only type candidates are reclassified by the occurrence
scan: every `types` candidate of a file whose name occurs at least twice
(word-boundary match) in that file's text is placed in the unused-exported
bucket and never in the fully-unused bucket of the merge's per-item dead-code
record. -/
theorem knip_type_candidates_reclassified (knip : KnipData)
    (fileContent : String → String) (item : KnipIssueItem) (name : String)
    (hname : name ∈ typeCandidates knip.issues item.file)
    (hocc : 2 ≤ wbCount name (fileContent item.file)) :
    name ∈ dcUnusedExportedTypeNames knip fileContent item ∧
    name ∉ dcUnusedTypeNames knip fileContent item ∧
    0 < (dcOfItem knip fileContent item).unusedExportedTypes := by
  have hcontent : fileContent item.file ≠ "" := by
    intro hempty
    rw [hempty] at hocc
    have h0 : wbCount name "" = 0 := rfl
    omega
  have hIR : isInternallyReferenced (fileContent item.file) name = true := by
    simp [isInternallyReferenced, hcontent, hocc]
  have hsplit : itemTypeSplit knip fileContent item =
      splitCandidates (fileContent item.file) (typeCandidates knip.issues item.file) := by
    unfold itemTypeSplit analyzeResultsFor
    have : (typeCandidates knip.issues item.file).isEmpty = false := by
      cases hcand : typeCandidates knip.issues item.file with
      | nil => rw [hcand] at hname; exact absurd hname (by simp)
      | cons a l => simp
    simp [this]
  have hmem : name ∈ (itemTypeSplit knip fileContent item).2 := by
    rw [hsplit]
    exact List.mem_filter.mpr ⟨hname, hIR⟩
  refine ⟨hmem, ?_, ?_⟩
  · intro hin
    unfold dcUnusedTypeNames at hin
    rw [hsplit] at hin
    have := (List.mem_filter.mp hin).2
    rw [hIR] at this
    simp at this
  · show 0 < (itemTypeSplit knip fileContent item).2.length
    have hne : (itemTypeSplit knip fileContent item).2 ≠ [] := by
      intro h
      rw [h] at hmem
      exact absurd hmem (List.not_mem_nil name)
    exact List.length_pos.mpr hne

/-- Witness for the amended C3: type candidate `Foo` occurring twice in
`a.ts` lands in the unused-exported bucket. -/
theorem knip_type_candidates_reclassified_witness :
    "Foo" ∈ dcUnusedExportedTypeNames sampleTypeKnip (fun _ => sampleFooTypeContent)
      sampleTypeIssue ∧
    "Foo" ∉ dcUnusedTypeNames sampleTypeKnip (fun _ => sampleFooTypeContent)
      sampleTypeIssue ∧
    0 < (dcOfItem sampleTypeKnip (fun _ => sampleFooTypeContent)
      sampleTypeIssue).unusedExportedTypes :=
  knip_type_candidates_reclassified sampleTypeKnip (fun _ => sampleFooTypeContent)
    sampleTypeIssue "Foo" (by decide) (by decide)

/-! ## C4: status/violation-data agreement -/

set_option maxRecDepth 4000 in
/-- **C4, counterexample.**  Two per-file categories diverge from the
claimed "status FAIL iff the category's violation list is non-empty".
The size category of a 51-line file of type `utils` (limit 50) has status
FAIL while carrying zero violation records (the source object
`{ lines, limit, status }` has no violation list); and the dead-code
category of a file pre-marked wholly unused has status FAIL while carrying
no candidate name lists or counts at all. -/
theorem perfile_status_counterexample :
    (buildPerFileResult "lib/a.ts" "lib/a.ts" "utils" sample51Lines [] [] []
      false (fun _ => none)).size.status = Status.FAIL ∧
    sizeViolationRecordCount
      (buildPerFileResult "lib/a.ts" "lib/a.ts" "utils" sample51Lines [] [] []
        false (fun _ => none)).size = 0 ∧
    (applyUnusedFilePreMark ["lib/a.ts"] id
      (buildPerFileResult "lib/a.ts" "lib/a.ts" "utils" sample51Lines [] [] []
        false (fun _ => none))).deadCode = some unusedFilePreMark ∧
    unusedFilePreMark.status = Status.FAIL ∧
    unusedFilePreMark.unusedFile = true ∧
    unusedFilePreMark.unusedExports = 0 ∧
    unusedFilePreMark.unusedTypes = 0 ∧
    unusedFilePreMark.unusedExportedTypes = 0 := by
  refine ⟨by decide, rfl, by decide, rfl, rfl, rfl, rfl, rfl⟩

/-- **C4, amended.**  Every per-file category that carries a violation list
satisfies the equivalence: console violations, comment violations,
typescript-heuristic details, fallback-data violations, attached compiler
diagnostics and duplicate segments each have status FAIL exactly when their
list is non-empty, and an issue-driven dead-code record is FAIL exactly when
some candidate bucket is non-empty.  Two categories diverge from the claim
as stated: the size category carries no violation records and is FAIL
exactly when a numeric limit exists and is exceeded, and the dead-code
record of a file pre-marked wholly unused is FAIL with the `unusedFile`
flag as its only violation datum -- no candidate lists. -/
theorem perfile_status_iff_amended (content : String)
    (arr : List CommentViolation) (missingDetails fallbackViolations : List String)
    (lines : Nat) (limit : Option Nat)
    (byFile : String → List TscErr) (toRel : String → String)
    (r : PerFileResult) (dups : List Dup) (results : List PerFileResult)
    (knip : KnipData) (fileContent : String → String) (item : KnipIssueItem)
    (knipFiles : List String) :
    ((analyzeConsoleErrors content).status = Status.FAIL ↔
      (analyzeConsoleErrors content).violations ≠ []) ∧
    ((commentsCat arr).status = Status.FAIL ↔ (commentsCat arr).violations ≠ []) ∧
    ((typeScriptCat missingDetails).status = Status.FAIL ↔
      (typeScriptCat missingDetails).details ≠ []) ∧
    ((fallbackCat fallbackViolations).status = Status.FAIL ↔
      (fallbackCat fallbackViolations).violations ≠ []) ∧
    (∀ t, (attachTsc byFile toRel r).typescriptCompiler = some t →
      (t.status = Status.FAIL ↔ t.errors ≠ [])) ∧
    (∀ r', r' ∈ applyJscpdToResults toRel dups results →
      ∃ d, r'.duplicates = some d ∧ (d.status = Status.FAIL ↔ d.segments ≠ [])) ∧
    ((dcOfItem knip fileContent item).status = Status.FAIL ↔
      (0 < item.exports.length ∨
       0 < (itemTypeSplit knip fileContent item).1.length ∨
       0 < (itemTypeSplit knip fileContent item).2.length ∨
       0 < memberCount item.enumMembers ∨ 0 < memberCount item.classMembers ∨
       0 < item.unlisted.length ∨ 0 < item.unresolved.length)) ∧
    ((sizeCat lines limit).status = Status.FAIL ↔ ∃ l, limit = some l ∧ l < lines) ∧
    (toRel r.filePath ∈ knipFiles →
      ∃ d, (applyUnusedFilePreMark knipFiles toRel r).deadCode = some d ∧
        d.status = Status.FAIL ∧ d.unusedFile = true ∧
        d.unusedExports = 0 ∧ d.unusedTypes = 0 ∧ d.unusedExportedTypes = 0) := by
  refine ⟨?_, ?_, ?_, ?_, ?_, ?_, ?_, ?_, ?_⟩
  · unfold analyzeConsoleErrors
    cases hv : consoleViolations content <;> simp [hv]
  · unfold commentsCat
    cases arr <;> simp
  · unfold typeScriptCat
    cases missingDetails <;> simp
  · unfold fallbackCat
    cases fallbackViolations <;> simp
  · intro t ht
    unfold attachTsc at ht
    simp only [Option.some.injEq] at ht
    subst ht
    cases he : byFile (toRel r.filePath) <;> simp [he]
  · intro r' hr'
    unfold applyJscpdToResults at hr'
    obtain ⟨r0, _, rfl⟩ := List.mem_map.mp hr'
    refine ⟨_, rfl, ?_⟩
    cases hs : segmentsForFile toRel dups (toRel r0.filePath) <;> simp [hs]
  · by_cases hany : (0 < item.exports.length ∨
        0 < (itemTypeSplit knip fileContent item).1.length ∨
        0 < (itemTypeSplit knip fileContent item).2.length ∨
        0 < memberCount item.enumMembers ∨ 0 < memberCount item.classMembers ∨
        0 < item.unlisted.length ∨ 0 < item.unresolved.length) <;>
      simp [dcOfItem, hany]
  · unfold sizeCat
    cases limit with
    | none => simp
    | some l =>
        by_cases hl : l < lines <;> simp [hl]
  · intro hmem
    unfold applyUnusedFilePreMark
    rw [if_pos hmem]
    exact ⟨unusedFilePreMark, rfl, rfl, rfl, rfl, rfl, rfl⟩

/-- Witness for the amended C4: concrete instances of the compiler,
duplicate, size and unused-file-pre-mark parts with their hypotheses
discharged. -/
theorem perfile_status_iff_amended_witness :
    ((⟨0, [], Status.PASS⟩ : TscCompilerCat).status = Status.FAIL ↔
      (⟨0, [], Status.PASS⟩ : TscCompilerCat).errors ≠ []) ∧
    (∃ d, ({ syntheticTscResult [] with
        duplicates := some ⟨0, [], Status.PASS, []⟩ } : PerFileResult).duplicates
          = some d ∧ (d.status = Status.FAIL ↔ d.segments ≠ [])) ∧
    ((sizeCat 51 (some 50)).status = Status.FAIL ↔
      ∃ l, (some 50 : Option Nat) = some l ∧ l < 51) ∧
    (∃ d, (applyUnusedFilePreMark ["(repo) TypeScript Compiler"] id
        (syntheticTscResult [])).deadCode = some d ∧
      d.status = Status.FAIL ∧ d.unusedFile = true ∧
      d.unusedExports = 0 ∧ d.unusedTypes = 0 ∧ d.unusedExportedTypes = 0) := by
  have h := perfile_status_iff_amended "" [] [] [] 51 (some 50) (fun _ => []) id
    (syntheticTscResult []) [] [syntheticTscResult []] ⟨[], []⟩ (fun _ => "")
    ⟨"", [], [], [], [], [], []⟩ ["(repo) TypeScript Compiler"]
  exact ⟨h.2.2.2.2.1 ⟨0, [], Status.PASS⟩ rfl,
    h.2.2.2.2.2.1 ({ syntheticTscResult [] with
      duplicates := some ⟨0, [], Status.PASS, []⟩ }) (by decide),
    h.2.2.2.2.2.2.2.1,
    h.2.2.2.2.2.2.2.2 (by decide)⟩

/-! ## C9: counting of unparsed compiler-output lines -/

/-- A line is skipped exactly when its trimmed form is empty or lacks the
`error TS<digits>` token -- the `continue` prefilter alone decides discard. -/
theorem classifyTscLine_skipped_iff (raw : String) :
    classifyTscLine raw = .skipped ↔
      (jsTrim raw = "" ∨ hasErrorTS (jsTrim raw) = false) := by
  unfold classifyTscLine
  by_cases h1 : jsTrim raw = ""
  · simp [h1]
  · simp only [h1, if_false]
    by_cases h2 : hasErrorTS (jsTrim raw)
    · simp only [h2, Bool.not_true, Bool.false_eq_true, if_false]
      cases hp1 : matchPattern1 (jsTrim raw).data with
      | some r => simp [h1, h2]
      | none =>
          cases hp2 : matchPattern2 (jsTrim raw).data with
          | some r => simp [h1, h2]
          | none =>
              cases hp3 : matchErrTail (jsTrim raw).data with
              | some p => simp [h1, h2]
              | none => simp [h1, h2]
    · simp [h1, h2]

/-- **C9, amended.**  On a non-zero compiler exit, `totalErrors` counts
exactly the output lines whose trimmed form is non-empty and contains an
`error TS<digits>` token: among those, lines unmatched by the two positional
formats and the global form are still counted (as UNKNOWN diagnostics), but
lines without the token are discarded by the prefilter rather than counted. -/
theorem tsc_prefilter_counts (out : String) :
    tscCatchTotalErrors out =
      ((splitLines out).filter fun raw =>
        !(jsTrim raw = "") && hasErrorTS (jsTrim raw)).length := by
  unfold tscCatchTotalErrors
  rw [List.countP_map, List.countP_eq_length_filter]
  congr 1
  apply List.filter_congr
  intro raw _
  by_cases h1 : jsTrim raw = ""
  · have hs : classifyTscLine raw = .skipped :=
      (classifyTscLine_skipped_iff raw).mpr (Or.inl h1)
    simp [Function.comp, hs, TscLineClass.counted, h1]
  · by_cases h2 : hasErrorTS (jsTrim raw)
    · have hne : classifyTscLine raw ≠ .skipped := by
        rw [Ne, classifyTscLine_skipped_iff]
        simp [h1, h2]
      cases hc : classifyTscLine raw <;>
        simp_all [Function.comp, TscLineClass.counted]
    · have hs : classifyTscLine raw = .skipped :=
        (classifyTscLine_skipped_iff raw).mpr
          (Or.inr (by simpa using h2))
      simp [Function.comp, hs, TscLineClass.counted, h1, h2]

/-- **C9, counterexample.**  The non-empty line `Compilation failed` matches
none of the two positional formats nor the global error form, yet it is
discarded (not counted as an unknown diagnostic): the whole non-zero-exit
output consisting of that line yields `totalErrors = 0` -- a false PASS the
claim says cannot happen. -/
theorem tsc_unmatched_line_discarded :
    "Compilation failed" ≠ "" ∧
    matchPattern1 "Compilation failed".data = none ∧
    matchPattern2 "Compilation failed".data = none ∧
    matchErrTail "Compilation failed".data = none ∧
    classifyTscLine "Compilation failed" = .skipped ∧
    tscCatchTotalErrors "Compilation failed" = 0 ∧
    runTscTotalErrors (.threw "Compilation failed" "" "exit code 2") = 0 := by
  decide

/-! ## C2: tool-infrastructure fault handling -/

/-- **C2, counterexample.**  A knip subprocess failure with unparsable
captured output produces an `{ error, raw }` marker object instead of a
thrown error; the merge consumes it as zero findings, and with nothing else
failing the run reports `pass` with exit code 0 -- the infrastructure fault
neither bubbles nor forces a non-zero exit, and the tool's category is
exactly a zero-findings PASS. -/
theorem tool_fault_pass_counterexample :
    runKnip (fun _ => none) (.threw "not json" "" "Command failed")
      = .errorMarker "Failed to run knip: Command failed" "not json" ∧
    knipSummaryOf
      (knipDataForMerge
        (runKnip (fun _ => none) (.threw "not json" "" "Command failed")))
      (fun _ => "") = emptyKnipSummary ∧
    (buildReport knipFaultInputs).1.status = "pass" ∧
    (buildReport knipFaultInputs).2 = 0 := by
  decide

/-- **C2, amended.**  Tool-infrastructure faults are degraded rather than
run-blocking: a knip subprocess/parse fault becomes an error-marker value
that the merge consumes as zero findings; an ESLint batch fault marks the
step skipped and records a warning while keeping the maps of the chunks that
succeeded; and with otherwise-clean inputs such faults leave the report at
`pass` with exit code 0 (the exit code is non-zero only when violations are
found). -/
theorem tool_fault_degradation (parse : String → Option KnipData)
    (so se msg : String) (hparse : parse (jsOr (jsOr so se) "") = none)
    (fileContent : String → String)
    (chunks : List (Except String (List (String × EslintCat))))
    (m : List (String × EslintCat)) (emsg : String)
    (hchunks : runChunks chunks = (m, some emsg))
    (warnings : List String) :
    runKnip parse (.threw so se msg)
      = .errorMarker ("Failed to run knip: " ++ msg) (jsOr (jsOr so se) "") ∧
    knipSummaryOf (knipDataForMerge (runKnip parse (.threw so se msg))) fileContent
      = emptyKnipSummary ∧
    eslintBatchPhase true chunks = (m, true, ["ESLint batch degraded: " ++ emsg]) ∧
    (buildReport
      { results := [], reportAll := false, filteredByFile := []
        projectTotalErrors := 0, eslintRepoErrors := 0
        knipSummary :=
          knipSummaryOf (knipDataForMerge (runKnip parse (.threw so se msg)))
            fileContent
        jscpdSummary := ⟨0, 0, none⟩, repoWarnings := warnings }).1.status = "pass" ∧
    (buildReport
      { results := [], reportAll := false, filteredByFile := []
        projectTotalErrors := 0, eslintRepoErrors := 0
        knipSummary :=
          knipSummaryOf (knipDataForMerge (runKnip parse (.threw so se msg)))
            fileContent
        jscpdSummary := ⟨0, 0, none⟩, repoWarnings := warnings }).2 = 0 := by
  have h1 : runKnip parse (.threw so se msg)
      = .errorMarker ("Failed to run knip: " ++ msg) (jsOr (jsOr so se) "") := by
    simp [runKnip, hparse]
  have h2 : knipSummaryOf (knipDataForMerge (runKnip parse (.threw so se msg)))
      fileContent = emptyKnipSummary := by
    rw [h1]
    rfl
  have h3 : eslintBatchPhase true chunks
      = (m, true, ["ESLint batch degraded: " ++ emsg]) := by
    simp [eslintBatchPhase, hchunks]
  have hav : anyViolationOf
      { results := [], reportAll := false, filteredByFile := []
        projectTotalErrors := 0, eslintRepoErrors := 0
        knipSummary := emptyKnipSummary
        jscpdSummary := ⟨0, 0, none⟩, repoWarnings := warnings } = false := rfl
  refine ⟨h1, h2, h3, ?_, ?_⟩ <;> rw [h2] <;> simp [buildReport, hav]

/-- Witness for the amended C2 at concrete faulty runs of both tools. -/
theorem tool_fault_degradation_witness :
    runKnip (fun _ => none) (.threw "bad" "" "spawn failed")
      = .errorMarker "Failed to run knip: spawn failed" "bad" ∧
    eslintBatchPhase true [Except.error "boom"]
      = ([], true, ["ESLint batch degraded: boom"]) ∧
    (buildReport
      { results := [], reportAll := false, filteredByFile := []
        projectTotalErrors := 0, eslintRepoErrors := 0
        knipSummary :=
          knipSummaryOf
            (knipDataForMerge (runKnip (fun _ => none) (.threw "bad" "" "spawn failed")))
            (fun _ => "")
        jscpdSummary := ⟨0, 0, none⟩
        repoWarnings := ["ESLint batch degraded: boom"] }).2 = 0 := by
  have h := tool_fault_degradation (fun _ => none) "bad" "" "spawn failed" rfl
    (fun _ => "") [Except.error "boom"] [] "boom" rfl
    ["ESLint batch degraded: boom"]
  exact ⟨h.1, h.2.2.1, h.2.2.2.2⟩

/-! ## C1: report emptiness invariant -/

/-- **C1, counterexample.**  When only the project-tsconfig compiler gate
fails (`projectTotalErrors = 1`, everything else clean, no `--report-all`),
the emitted report has status `fail` with an empty `results` list and no
repo-level block: the claimed equivalence between `pass` status and
(empty results ∧ no repo block) is false, and a failing repo-wide gate is
not always accompanied by a repo-level block. -/
theorem report_emptiness_counterexample :
    0 < projectGateOnlyInputs.projectTotalErrors ∧
    (buildReport projectGateOnlyInputs).1.status = "fail" ∧
    (buildReport projectGateOnlyInputs).1.results = [] ∧
    (buildReport projectGateOnlyInputs).1.repo = none ∧
    (buildReport projectGateOnlyInputs).2 = 1 ∧
    ¬(((buildReport projectGateOnlyInputs).1.status = "pass") ↔
      ((buildReport projectGateOnlyInputs).1.results = [] ∧
       (buildReport projectGateOnlyInputs).1.repo = none)) := by
  decide

/-- `repoOutOf` never changes the `actions` field of `buildRepoOut`. -/
theorem repoOutOf_actions (inp : ReportInputs) :
    (repoOutOf inp).actions =
      repoActionsOf
        (if 0 < filteredTotalErrorsOf inp then some (filteredTotalErrorsOf inp) else none)
        (if knipFailB inp.knipSummary then some inp.knipSummary else none)
        (if jscpdFailB inp.jscpdSummary then some inp.jscpdSummary else none)
        inp.eslintRepoErrors := by
  unfold repoOutOf buildRepoOut
  by_cases hw : inp.repoWarnings.isEmpty <;> simp [hw]

/-- `repoOutOf` never changes the `tsc` field of `buildRepoOut`. -/
theorem repoOutOf_tsc (inp : ReportInputs) :
    (repoOutOf inp).tsc =
      (if 0 < filteredTotalErrorsOf inp then some (filteredTotalErrorsOf inp) else none) := by
  unfold repoOutOf buildRepoOut
  by_cases hw : inp.repoWarnings.isEmpty <;> simp [hw]

/-- **C1, amended.**  `summary.status == "pass"` exactly when no per-file
category and no repo-wide gate failed; a `pass` report always has empty
`results`, no repo block and exit code 0; every failing repo-wide gate
forces status `fail`; and the repo-wide ESLint gate and the merged-tsconfig
compiler gate additionally guarantee a repo-level block (the compiler gate
also a non-empty results list via the synthetic entry).  The converse
direction of the claimed equivalence is false: a fail report may have empty
results and no repo block (see the counterexample). -/
theorem report_status_amended (inp : ReportInputs) :
    ((buildReport inp).1.status = "pass" ↔ anyViolationOf inp = false) ∧
    ((buildReport inp).1.status = "pass" →
      (buildReport inp).1.results = [] ∧ (buildReport inp).1.repo = none ∧
      (buildReport inp).2 = 0) ∧
    (repoViolationB (filteredTotalErrorsOf inp) inp.projectTotalErrors
        inp.eslintRepoErrors inp.knipSummary inp.jscpdSummary = true →
      (buildReport inp).1.status = "fail") ∧
    (0 < inp.eslintRepoErrors →
      (buildReport inp).1.status = "fail" ∧ (buildReport inp).1.repo ≠ none) ∧
    (0 < filteredTotalErrorsOf inp →
      (buildReport inp).1.status = "fail" ∧ (buildReport inp).1.repo ≠ none ∧
      (buildReport inp).1.results ≠ []) := by
  have hfailne : ("fail" : String) ≠ "pass" := by decide
  have hrepo_ne : ∀ h : anyViolationOf inp = true,
      (repoOutOf inp).isEmpty = false → (buildReport inp).1.repo ≠ none := by
    intro h hie
    simp [buildReport, h, hie]
  refine ⟨?_, ?_, ?_, ?_, ?_⟩
  · by_cases hv : anyViolationOf inp <;> simp [buildReport, hv, hfailne]
  · intro hpass
    by_cases hv : anyViolationOf inp
    · have hst : (buildReport inp).1.status = "fail" := by simp [buildReport, hv]
      rw [hst] at hpass
      exact absurd hpass hfailne
    · simp [buildReport, hv]
  · intro hrv
    have hv : anyViolationOf inp = true := by
      simp [anyViolationOf, hrv]
    simp [buildReport, hv]
  · intro he
    have hrv : repoViolationB (filteredTotalErrorsOf inp) inp.projectTotalErrors
        inp.eslintRepoErrors inp.knipSummary inp.jscpdSummary = true := by
      simp [repoViolationB, he]
    have hv : anyViolationOf inp = true := by
      simp [anyViolationOf, hrv]
    have hact : (repoOutOf inp).actions ≠ [] := by
      rw [repoOutOf_actions]
      exact repoActionsOf_ne_nil he
    have hie : (repoOutOf inp).isEmpty = false := by
      have hia : (repoOutOf inp).actions.isEmpty = false := by
        cases hl : (repoOutOf inp).actions.isEmpty
        · rfl
        · exact absurd (List.isEmpty_iff.mp hl) hact
      simp [RepoOut.isEmpty, hia]
    exact ⟨by simp [buildReport, hv], hrepo_ne hv hie⟩
  · intro hf
    have hrv : repoViolationB (filteredTotalErrorsOf inp) inp.projectTotalErrors
        inp.eslintRepoErrors inp.knipSummary inp.jscpdSummary = true := by
      simp [repoViolationB, hf]
    have hv : anyViolationOf inp = true := by
      simp [anyViolationOf, hrv]
    have htsc : (repoOutOf inp).tsc = some (filteredTotalErrorsOf inp) := by
      rw [repoOutOf_tsc]
      simp [hf]
    have hie : (repoOutOf inp).isEmpty = false := by
      simp [RepoOut.isEmpty, htsc]
    refine ⟨by simp [buildReport, hv], hrepo_ne hv hie, ?_⟩
    have hne : resultsWithSyntheticOf inp ≠ [] := by
      unfold resultsWithSyntheticOf
      by_cases hemp : (resultsToWriteOf inp).isEmpty
      · simp [hv, hemp, hf]
      · have hrtw : resultsToWriteOf inp ≠ [] := by
          intro h
          exact hemp (by simp [h])
        have hcond : (anyViolationOf inp && (resultsToWriteOf inp).isEmpty &&
            decide (0 < filteredTotalErrorsOf inp)) = false := by
          simp [Bool.not_eq_true] at hemp
          simp [hemp]
        simp only [hcond, Bool.false_eq_true, if_false]
        exact hrtw
    simp [buildReport, hv, List.map_eq_nil_iff]
    intro hcontra
    exact hne hcontra

/-- Witness for the amended C1: the pass projection on clean inputs, the
ESLint-gate projection and the compiler-gate projection, each with its
hypothesis discharged at a concrete input. -/
theorem report_status_amended_witness :
    ((buildReport cleanReportInputs).1.results = [] ∧
     (buildReport cleanReportInputs).1.repo = none ∧
     (buildReport cleanReportInputs).2 = 0) ∧
    ((buildReport eslintGateOnlyInputs).1.status = "fail" ∧
     (buildReport eslintGateOnlyInputs).1.repo ≠ none) ∧
    ((buildReport tscGateOnlyInputs).1.status = "fail" ∧
     (buildReport tscGateOnlyInputs).1.repo ≠ none ∧
     (buildReport tscGateOnlyInputs).1.results ≠ []) :=
  ⟨(report_status_amended cleanReportInputs).2.1 (by decide),
   (report_status_amended eslintGateOnlyInputs).2.2.2.1 (by decide),
   (report_status_amended tscGateOnlyInputs).2.2.2.2 (by decide)⟩

end CodeReview
